import Mathlib

/-!
Shallow embedding of the Factoids plugin (src/plugins/Factoids.py).

The per-scope SQLite database is embedded as two row lists kept in insertion
order.  SQLite assigns a fresh `INTEGER PRIMARY KEY` as one more than the
largest existing rowid, so row ids are strictly increasing along each list for
every state reachable from the empty database; queries that say `ORDER BY id`
are therefore embedded as reads of the stored list (the sortedness is proved
for well-formed states, see `WF`).

The capability decision (`ircdb.checkCapability`) and the resolved contributor
name are external collaborators in the spec; they enter the model as the
`hasCap : Bool` and `name : String` arguments of each operation, exactly where
the source consults them.  `int(time.time())` enters as the `now : Nat`
argument.  The command-string sniffing in `unlearn` (lines 197-200 of the
source, the `args[-1].isdigit` truthy-callable) belongs to the excluded
command-parsing layer; the facade-level position parameter is the already
parsed `number : Option Int` the rest of the function consumes.
-/

/-- Row of the `keys` table: `id INTEGER PRIMARY KEY, key TEXT UNIQUE ON
CONFLICT IGNORE, locked BOOLEAN`. -/
structure KeyRow where
  id : Nat
  key : String
  locked : Bool
deriving DecidableEq

/-- Row of the `factoids` table: `id INTEGER PRIMARY KEY, key_id INTEGER,
added_by TEXT, added_at TIMESTAMP, fact TEXT`. -/
structure FactoidRow where
  id : Nat
  key_id : Nat
  added_by : String
  added_at : Nat
  fact : String
deriving DecidableEq

/-- One scope's database: both tables in insertion (rowid) order. -/
structure DB where
  keys : List KeyRow
  factoids : List FactoidRow
deriving DecidableEq

/-- The freshly created scope database (`makeDb` creates both tables empty). -/
def emptyDB : DB := ⟨[], []⟩

/-- Largest id in a list of ids (0 when empty). -/
def maxId (l : List Nat) : Nat := l.foldr max 0

/-- The rowid SQLite assigns to the next inserted `keys` row. -/
def nextKeyId (db : DB) : Nat := maxId (db.keys.map (fun k => k.id)) + 1

/-- The rowid SQLite assigns to the next inserted `factoids` row. -/
def nextFactoidId (db : DB) : Nat := maxId (db.factoids.map (fun f => f.id)) + 1

/-- Embedding of `SELECT id, locked FROM keys WHERE key=%s` (plus fetchone):
the unique-on-conflict-ignore column makes at most one row match in reachable
states; `find?` returns the first stored match. -/
def findKey (db : DB) (key : String) : Option KeyRow :=
  db.keys.find? (fun k => k.key == key)

/-- Rows of `factoids` belonging to one key, in stored (id) order:
`SELECT ... FROM factoids WHERE key_id=%s`. -/
def factsOf (fs : List FactoidRow) (kid : Nat) : List FactoidRow :=
  fs.filter (fun f => f.key_id == kid)

/-- Typed reply of an operation, mirroring the source's `irc.reply` /
`irc.error` branches. -/
inductive Reply where
  /-- `conf.replySuccess`. -/
  | success
  /-- `conf.replyNoCapability` (capability check failed). -/
  | noCapability
  /-- learn: `That factoid is locked.` -/
  | lockedError
  /-- unlearn: `There is no such factoid.` -/
  | noSuchFactoid
  /-- unlearn: `Invalid factoid number.` -/
  | invalidNumber
  /-- unlearn: `%s factoids have that key.  Please specify which one ...` -/
  | ambiguous (count : Nat)
deriving DecidableEq

/-- Embedding of `INSERT INTO factoids VALUES (NULL, %s, %s, %s, %s)`. -/
def insertFactoid (db : DB) (kid : Nat) (name : String) (now : Nat)
    (fact : String) : DB :=
  { db with factoids := db.factoids ++ [⟨nextFactoidId db, kid, name, now, fact⟩] }

/-- Source lines 103-117 of `learn`: the part after the key row `(id, locked)`
has been resolved.  Note the capability is only consulted in the not-locked
branch, and the error return leaves `db` as it already is — including a key
row the same call may just have inserted. -/
def learnBody (db : DB) (kid : Nat) (locked : Bool) (fact name : String)
    (now : Nat) (hasCap : Bool) : DB × Reply :=
  if !locked then
    if !hasCap then (db, Reply.noCapability)
    else (insertFactoid db kid name now fact, Reply.success)
  else (db, Reply.lockedError)

/-- `Factoids.learn` (source lines 96-117): select the key row; when absent,
insert `(NULL, key, 0)`, commit, and re-select (the fresh row, with the fresh
rowid and `locked = 0`); then run the locked/capability logic. -/
def learn (db : DB) (key fact name : String) (now : Nat) (hasCap : Bool) :
    DB × Reply :=
  match findKey db key with
  | some k => learnBody db k.id k.locked fact name now hasCap
  | none =>
      let kid := nextKeyId db
      let db1 : DB := { db with keys := db.keys ++ [⟨kid, key, false⟩] }
      learnBody db1 kid false fact name now hasCap

/-- The fact column of `SELECT factoids.fact FROM factoids, keys WHERE
keys.key=%s AND factoids.key_id=keys.id ORDER BY factoids.id LIMIT 20`
(nested-loop join: the at-most-one matching key row, then its factoids in
rowid order). -/
def whatisFacts (db : DB) (key : String) : List String :=
  (((db.keys.filter (fun k => k.key == key)).flatMap
      (fun k => factsOf db.factoids k.id)).map (fun f => f.fact)).take 20

/-- Data content of a successful `whatis` reply: the fetched facts and the
`totalResults = len(factoids)` count the source computes at line 142 (the
length of the fetched, already-limited list). -/
structure WhatIsOk where
  facts : List String
  totalResults : Nat
deriving DecidableEq

/-- `Factoids.whatis` (source lines 130-148): `none` is the
`No factoid matches that key.` error; a reply carries the fetched facts (the
`(#i) fact` formatting is presentation) and `totalResults`. -/
def whatis (db : DB) (key : String) : Option WhatIsOk :=
  let facts := whatisFacts db key
  if facts.isEmpty then none
  else some ⟨facts, facts.length⟩

/-- Embedding of `UPDATE keys SET locked = b WHERE key=%s` applied to one
row. -/
def setLockEntry (key : String) (b : Bool) (k : KeyRow) : KeyRow :=
  if k.key == key then { k with locked := b } else k

/-- Embedding of `UPDATE keys SET locked = b WHERE key=%s`. -/
def setLockedRows (db : DB) (key : String) (b : Bool) : DB :=
  { db with keys := db.keys.map (setLockEntry key b) }

/-- `Factoids.lock` (source lines 157-167): with the capability, run the
update (unconditionally — no existence check) and reply success; without it,
error. -/
def lock (db : DB) (key : String) (hasCap : Bool) : DB × Reply :=
  if hasCap then (setLockedRows db key true, Reply.success)
  else (db, Reply.noCapability)

/-- `Factoids.unlock` (source lines 176-186): same shape with `locked = 0`. -/
def unlock (db : DB) (key : String) (hasCap : Bool) : DB × Reply :=
  if hasCap then (setLockedRows db key false, Reply.success)
  else (db, Reply.noCapability)

/-- `SELECT keys.id, factoids.id FROM keys, factoids WHERE key=%s AND
factoids.key_id=keys.id` (nested-loop join, factoids in rowid order). -/
def joinRows (db : DB) (key : String) : List (Nat × Nat) :=
  (db.keys.filter (fun k => k.key == key)).flatMap
    (fun k => (factsOf db.factoids k.id).map (fun f => (k.id, f.id)))

/-- Python list subscripting with an `int` index, as in `results[number]`
under the surrounding `except IndexError`: negative indices count from the
end; `none` is the `IndexError` case. -/
def pyGet (xs : List α) (i : Int) : Option α :=
  if 0 ≤ i then xs.get? i.toNat
  else if (-i).toNat ≤ xs.length then xs.get? (xs.length - (-i).toNat)
  else none

/-- `Factoids.unlearn` (source lines 202-234), taking the facade-level
optional position.  `rowcount = 0` is the no-such-factoid error;
`rowcount = 1` deletes the key's factoids and the key row itself (whose
`BEFORE DELETE` trigger also clears factoids of every deleted key row);
otherwise a supplied number picks `results[number]` (Python indexing) and
deletes that factoid row, a missing number is the ambiguity error. -/
def unlearn (db : DB) (key : String) (number : Option Int) (hasCap : Bool) :
    DB × Reply :=
  if hasCap then
    let rows := joinRows db key
    if rows.length = 0 then (db, Reply.noSuchFactoid)
    else if rows.length = 1 then
      let kid := (rows.headD (0, 0)).1
      let db1 : DB := { db with
        factoids := db.factoids.filter (fun f => !(f.key_id == kid)) }
      let deletedIds := (db1.keys.filter (fun k => k.key == key)).map
        (fun k => k.id)
      ( { keys := db1.keys.filter (fun k => !(k.key == key)),
          factoids := db1.factoids.filter
            (fun f => !(deletedIds.contains f.key_id)) },
        Reply.success )
    else
      match number with
      | some n =>
          match pyGet rows n with
          | none => (db, Reply.invalidNumber)
          | some r =>
              ( { db with
                  factoids := db.factoids.filter (fun f => !(f.id == r.2)) },
                Reply.success )
      | none => (db, Reply.ambiguous rows.length)
  else (db, Reply.noCapability)

/-- `Factoids.randomfactoid` (source lines 244-254): `ORDER BY random() LIMIT 1`
is embedded with an explicit choice of row; `none` is the
`I couldn't find a factoid.` error.  Read-only. -/
def randomfactoid (db : DB) (choice : Nat) : Option (String × String) :=
  match db.factoids.get? (choice % db.factoids.length) with
  | none => none
  | some f =>
      match db.keys.find? (fun k => k.id == f.key_id) with
      | none => none
      | some k => some (k.key, f.fact)

/-- `Factoids.factoidinfo` (source lines 266-286): the key's locked flag and
the `(added_by, added_at)` pairs of its factoids in id order.  Read-only. -/
def factoidinfo (db : DB) (key : String) :
    Option (Bool × List (String × Nat)) :=
  match findKey db key with
  | none => none
  | some k =>
      some (k.locked, (factsOf db.factoids k.id).map
        (fun f => (f.added_by, f.added_at)))

/-- One facade operation with the external inputs it consumes. -/
inductive Op where
  | learnOp (key fact name : String) (now : Nat) (hasCap : Bool)
  | whatisOp (key : String)
  | lockOp (key : String) (hasCap : Bool)
  | unlockOp (key : String) (hasCap : Bool)
  | unlearnOp (key : String) (number : Option Int) (hasCap : Bool)
  | randomOp (choice : Nat)
  | infoOp (key : String)
deriving DecidableEq

/-- State transformer of one operation (whatis, randomfactoid and
factoidinfo only read). -/
def stepDb (db : DB) : Op → DB
  | Op.learnOp k f n t c => (learn db k f n t c).1
  | Op.whatisOp _ => db
  | Op.lockOp k c => (lock db k c).1
  | Op.unlockOp k c => (unlock db k c).1
  | Op.unlearnOp k n c => (unlearn db k n c).1
  | Op.randomOp _ => db
  | Op.infoOp _ => db

/-- Run a sequence of operations from a starting state. -/
def runOps (db : DB) (ops : List Op) : DB :=
  ops.foldl stepDb db

/-- Whether an operation carries the granted capability decision; only
`learn` can change the answer of the empty-key invariant, the other
operations are safe either way. -/
def opHasCap : Op → Bool
  | Op.learnOp _ _ _ _ c => c
  | _ => true

/-- Well-formedness of reachable states: both tables have strictly increasing
ids along the stored order (fresh rowids exceed all existing ones) and key
texts are pairwise distinct (`UNIQUE ON CONFLICT IGNORE`). -/
def WF (db : DB) : Prop :=
  db.keys.Pairwise (fun a b => a.id < b.id) ∧
  db.keys.Pairwise (fun a b => a.key ≠ b.key) ∧
  db.factoids.Pairwise (fun a b => a.id < b.id)

/-- The spec's key invariant: no `keys` row with zero associated `factoids`
rows. -/
def NoEmptyKeys (db : DB) : Prop :=
  ∀ k ∈ db.keys, factsOf db.factoids k.id ≠ []

instance : DecidablePred NoEmptyKeys := fun db => by
  unfold NoEmptyKeys; infer_instance

instance : DecidablePred WF := fun db => by
  unfold WF; infer_instance

/-! Concurrent key resolution (claim C9).  The key-resolution prefix of
`learn` (source lines 96-101) is three SQL statements against the scope's
shared connection: a select, a conditional insert (`UNIQUE ON CONFLICT
IGNORE`), and a re-select.  Concurrent callers interleave at statement
granularity; the model below is a transition system over the shared `keys`
table and one program counter per caller. -/

/-- Key lookup on a bare `keys` table (`SELECT id, locked FROM keys WHERE
key=%s` plus fetchone). -/
def findKeyL (ks : List KeyRow) (text : String) : Option KeyRow :=
  ks.find? (fun k => k.key == text)

/-- `INSERT INTO keys VALUES (NULL, %s, 0)` under `UNIQUE ON CONFLICT
IGNORE`: a no-op when a row with this text exists, otherwise an append with
the fresh rowid. -/
def insertIgnore (ks : List KeyRow) (text : String) : List KeyRow :=
  match findKeyL ks text with
  | some _ => ks
  | none => ks ++ [⟨maxId (ks.map (fun k => k.id)) + 1, text, false⟩]

/-- Program counter of one concurrent caller running the key-resolution
prefix of `learn`. -/
inductive CallerPC where
  /-- About to run the first select. -/
  | start
  /-- First select found nothing; about to run the insert. -/
  | needInsert
  /-- Insert ran; about to run the re-select. -/
  | needReselect
  /-- Finished, having observed this key id. -/
  | done (id : Nat)
deriving DecidableEq

/-- Shared `keys` table plus the program counters of the concurrent
callers. -/
structure Cfg where
  keys : List KeyRow
  callers : List CallerPC
deriving DecidableEq

/-- One atomic SQL statement executed by one caller, all callers resolving
the same `text` (source lines 96-101 of `learn`). -/
inductive MicroStep (text : String) : Cfg → Cfg → Prop where
  /-- First select finds the key: the caller finishes with its id. -/
  | selectFound (i : Nat) (ks : List KeyRow) (cs : List CallerPC) (k : KeyRow)
      (hpc : cs.get? i = some CallerPC.start)
      (hfind : findKeyL ks text = some k) :
      MicroStep text ⟨ks, cs⟩ ⟨ks, cs.set i (CallerPC.done k.id)⟩
  /-- First select finds nothing: the caller proceeds to the insert. -/
  | selectMissing (i : Nat) (ks : List KeyRow) (cs : List CallerPC)
      (hpc : cs.get? i = some CallerPC.start)
      (hfind : findKeyL ks text = none) :
      MicroStep text ⟨ks, cs⟩ ⟨ks, cs.set i CallerPC.needInsert⟩
  /-- The conflict-ignoring insert runs. -/
  | insertKey (i : Nat) (ks : List KeyRow) (cs : List CallerPC)
      (hpc : cs.get? i = some CallerPC.needInsert) :
      MicroStep text ⟨ks, cs⟩
        ⟨insertIgnore ks text, cs.set i CallerPC.needReselect⟩
  /-- The re-select runs (its fetchone demands a row) and the caller
  finishes with the observed id. -/
  | reselect (i : Nat) (ks : List KeyRow) (cs : List CallerPC) (k : KeyRow)
      (hpc : cs.get? i = some CallerPC.needReselect)
      (hfind : findKeyL ks text = some k) :
      MicroStep text ⟨ks, cs⟩ ⟨ks, cs.set i (CallerPC.done k.id)⟩

/-- Inductive invariant of the concurrent key-resolution system: at most one
key row carries the text, every finished caller observed the id of the (then
unique, never removed) row for the text, and a caller about to re-select is
guaranteed a row to fetch. -/
def RegInv (text : String) (c : Cfg) : Prop :=
  (c.keys.filter (fun k => k.key == text)).length ≤ 1 ∧
  (∀ pc ∈ c.callers, ∀ id, pc = CallerPC.done id →
     ∃ k, findKeyL c.keys text = some k ∧ k.id = id) ∧
  (∀ pc ∈ c.callers, pc = CallerPC.needReselect →
     (findKeyL c.keys text).isSome = true)

/-- Concrete scope used by witnesses: one key `"c"` (id 1, unlocked) holding
two factoids, reachable by two capable learns. -/
def sampleDB2 : DB :=
  ⟨[⟨1, "c", false⟩], [⟨1, 1, "a", 0, "blue"⟩, ⟨2, 1, "b", 1, "red"⟩]⟩

/-- Concrete scope used by witnesses: one key `"w"` holding one factoid. -/
def sampleDB1 : DB := ⟨[⟨1, "w", false⟩], [⟨1, 1, "alice", 5, "a thing"⟩]⟩

/-- Concrete scope reached by 25 capable learns of the same key. -/
def sampleDB25 : DB :=
  runOps emptyDB (List.replicate 25 (Op.learnOp "k" "v" "a" 0 true))

/-! Helper lemmas about the embedded tables. -/

theorem maxId_cons (a : Nat) (t : List Nat) : maxId (a :: t) = max a (maxId t) := rfl

theorem mem_le_maxId {l : List Nat} {n : Nat} (h : n ∈ l) : n ≤ maxId l := by
  induction l with
  | nil => cases h
  | cons a t ih =>
      rw [maxId_cons]
      rcases List.mem_cons.1 h with rfl | h2
      · exact le_max_left _ _
      · exact le_trans (ih h2) (le_max_right _ _)

theorem factsOf_append (fs gs : List FactoidRow) (kid : Nat) :
    factsOf (fs ++ gs) kid = factsOf fs kid ++ factsOf gs kid := by
  simp [factsOf, List.filter_append]

theorem factsOf_filter (fs : List FactoidRow) (p : FactoidRow → Bool) (kid : Nat) :
    factsOf (fs.filter p) kid = (factsOf fs kid).filter p := by
  simp only [factsOf, List.filter_filter]
  exact List.filter_congr (fun x _ => by rw [Bool.and_comm])

theorem filter_eq_single_of_find {l : List KeyRow} {key : String} {k : KeyRow}
    (hnd : l.Pairwise (fun a b => a.key ≠ b.key))
    (hk : l.find? (fun x => x.key == key) = some k) :
    l.filter (fun x => x.key == key) = [k] := by
  induction l with
  | nil => simp at hk
  | cons a t ih =>
      rcases List.pairwise_cons.1 hnd with ⟨ha, ht⟩
      by_cases h : a.key = key
      · have hfa : (a.key == key) = true := by simp [h]
        simp only [List.find?_cons, List.filter_cons, hfa] at hk ⊢
        injection hk with hk
        subst hk
        have hnil : t.filter (fun x => x.key == key) = [] := by
          rw [List.filter_eq_nil]
          intro b hb hbk
          exact (ha b hb) (h.trans (beq_iff_eq.1 hbk).symm)
        simp [hnil]
      · have hfa : (a.key == key) = false := by simp [h]
        simp only [List.find?_cons, List.filter_cons, hfa] at hk ⊢
        exact ih ht hk

theorem filter_eq_nil_of_find_none {l : List KeyRow} {key : String}
    (hk : l.find? (fun x => x.key == key) = none) :
    l.filter (fun x => x.key == key) = [] := by
  rw [List.filter_eq_nil]
  exact List.find?_eq_none.1 hk

theorem ids_nodup {l : List FactoidRow}
    (h : l.Pairwise (fun a b => a.id < b.id)) :
    (l.map (fun f => f.id)).Nodup := by
  simp only [List.Nodup, List.pairwise_map]
  exact h.imp (fun hlt => Nat.ne_of_lt hlt)

theorem key_ids_nodup {l : List KeyRow}
    (h : l.Pairwise (fun a b => a.id < b.id)) :
    (l.map (fun k => k.id)).Nodup := by
  simp only [List.Nodup, List.pairwise_map]
  exact h.imp (fun hlt => Nat.ne_of_lt hlt)

theorem eq_of_id_eq {l : List FactoidRow}
    (h : (l.map (fun f => f.id)).Nodup) {f g : FactoidRow}
    (hf : f ∈ l) (hg : g ∈ l) (hid : f.id = g.id) : f = g :=
  List.inj_on_of_nodup_map h hf hg hid

theorem key_eq_of_id_eq {l : List KeyRow}
    (h : (l.map (fun k => k.id)).Nodup) {a b : KeyRow}
    (ha : a ∈ l) (hb : b ∈ l) (hid : a.id = b.id) : a = b :=
  List.inj_on_of_nodup_map h ha hb hid

theorem filter_ne_eraseIdx {l : List FactoidRow}
    (hnd : (l.map (fun f => f.id)).Nodup) {i : Nat} {fs : FactoidRow}
    (hget : l.get? i = some fs) :
    l.filter (fun f => !(f.id == fs.id)) = l.eraseIdx i := by
  induction l generalizing i with
  | nil => simp at hget
  | cons a t ih =>
      simp only [List.map_cons, List.nodup_cons] at hnd
      obtain ⟨hna, hnt⟩ := hnd
      cases i with
      | zero =>
          rw [List.get?_cons_zero] at hget
          injection hget with hget
          subst hget
          rw [List.eraseIdx_cons_zero, List.filter_cons_of_neg (by simp)]
          rw [List.filter_eq_self]
          intro b hb
          have : b.id ≠ a.id := fun he => hna (he ▸ List.mem_map_of_mem _ hb)
          simp [this]
      | succ n =>
          rw [List.get?_cons_succ] at hget
          have hmem : fs ∈ t := List.get?_mem hget
          have hne : a.id ≠ fs.id :=
            fun he => hna (he ▸ List.mem_map_of_mem _ hmem)
          rw [List.eraseIdx_cons_succ, List.filter_cons_of_pos (by simp [hne])]
          rw [ih hnt hget]

theorem keysFilter_eq_single {db : DB} {key : String} {k : KeyRow}
    (hwf : WF db) (hk : findKey db key = some k) :
    db.keys.filter (fun x => x.key == key) = [k] :=
  filter_eq_single_of_find hwf.2.1 hk

theorem joinRows_eq {db : DB} {key : String} {k : KeyRow}
    (hwf : WF db) (hk : findKey db key = some k) :
    joinRows db key = (factsOf db.factoids k.id).map (fun f => (k.id, f.id)) := by
  rw [joinRows, keysFilter_eq_single hwf hk]
  simp [List.flatMap_cons]

theorem joinRows_eq_nil {db : DB} {key : String}
    (hk : findKey db key = none) : joinRows db key = [] := by
  rw [joinRows, filter_eq_nil_of_find_none hk]
  simp

theorem whatisFacts_eq {db : DB} {key : String} {k : KeyRow}
    (hwf : WF db) (hk : findKey db key = some k) :
    whatisFacts db key = (((factsOf db.factoids k.id).map (fun f => f.fact)).take 20) := by
  rw [whatisFacts, keysFilter_eq_single hwf hk]
  simp [List.flatMap_cons]

theorem setLockEntry_key (key : String) (b : Bool) (k : KeyRow) :
    (setLockEntry key b k).key = k.key := by
  unfold setLockEntry; split <;> rfl

theorem setLockEntry_id (key : String) (b : Bool) (k : KeyRow) :
    (setLockEntry key b k).id = k.id := by
  unfold setLockEntry; split <;> rfl

theorem setLockedRows_factoids (db : DB) (key : String) (b : Bool) :
    (setLockedRows db key b).factoids = db.factoids := rfl

theorem setLockedRows_locked {db : DB} {key : String} {b : Bool} {k : KeyRow}
    (hm : k ∈ (setLockedRows db key b).keys) (hkey : k.key = key) :
    k.locked = b := by
  rcases List.mem_map.1 hm with ⟨k0, hk0, rfl⟩
  by_cases h : k0.key = key
  · simp [setLockEntry, h]
  · rw [setLockEntry_key] at hkey
    exact absurd hkey h

/-- C4 (corrected): `lock` and `unlock` never check whether a key row matches
the text — with the capability the unconditional `UPDATE` runs and the reply
is success even for an absent key (no NotFound exists); without the
capability nothing changes; after a capable lock every row carrying the text
is locked, after a capable unlock unlocked. -/
theorem C4_lock_unlock_amended (db : DB) (key : String) :
    (lock db key true).2 = Reply.success ∧
    (unlock db key true).2 = Reply.success ∧
    lock db key false = (db, Reply.noCapability) ∧
    unlock db key false = (db, Reply.noCapability) ∧
    (∀ k ∈ (lock db key true).1.keys, k.key = key → k.locked = true) ∧
    (∀ k ∈ (unlock db key true).1.keys, k.key = key → k.locked = false) := by
  refine ⟨rfl, rfl, rfl, rfl, ?_, ?_⟩
  · intro k hm hkey
    exact setLockedRows_locked hm hkey
  · intro k hm hkey
    exact setLockedRows_locked hm hkey

/-- C4 counterexample: on the empty scope no key row matches `"boat"`, yet a
capable `lock` and `unlock` both report success rather than the NotFound the
claim demands. -/
theorem C4_counterexample :
    findKey emptyDB "boat" = none ∧
    (lock emptyDB "boat" true).2 = Reply.success ∧
    (unlock emptyDB "boat" true).2 = Reply.success := by
  exact ⟨rfl, rfl, rfl⟩

/-- C5 (confirmed): `learn` against a pre-existing locked key takes the
locked branch before any insert: the reply is the locked error and the state
— in particular the factoid table and its cardinality — is untouched. -/
theorem C5_learn_locked_noop (db : DB) (key fact name : String) (now : Nat)
    (hasCap : Bool) (k : KeyRow)
    (hk : findKey db key = some k) (hlock : k.locked = true) :
    learn db key fact name now hasCap = (db, Reply.lockedError) ∧
    (learn db key fact name now hasCap).1.factoids.length
      = db.factoids.length := by
  have h1 : learn db key fact name now hasCap = (db, Reply.lockedError) := by
    rw [learn, hk]
    simp [learnBody, hlock]
  exact ⟨h1, by rw [h1]⟩

/-- C5 witness: a concrete scope where key `"c"` is locked with one stored
factoid; `learn` is a no-op with the locked error. -/
theorem C5_witness :
    findKey ⟨[⟨1, "c", true⟩], [⟨1, 1, "a", 0, "blue"⟩]⟩ "c"
        = some ⟨1, "c", true⟩ ∧
    learn ⟨[⟨1, "c", true⟩], [⟨1, 1, "a", 0, "blue"⟩]⟩ "c" "red" "b" 7 true
        = (⟨[⟨1, "c", true⟩], [⟨1, 1, "a", 0, "blue"⟩]⟩, Reply.lockedError) := by
  refine ⟨by decide, ?_⟩
  exact (C5_learn_locked_noop _ "c" "red" "b" 7 true ⟨1, "c", true⟩
    (by decide) rfl).1

theorem unlearn_ambiguous_eq (db : DB) (key : String) (k : KeyRow)
    (hwf : WF db) (hk : findKey db key = some k)
    (hlen : 2 ≤ (factsOf db.factoids k.id).length) :
    unlearn db key none true =
      (db, Reply.ambiguous (factsOf db.factoids k.id).length) := by
  have hrows := joinRows_eq hwf hk
  have hlr : (joinRows db key).length = (factsOf db.factoids k.id).length := by
    rw [hrows, List.length_map]
  have h0 : ¬ (factsOf db.factoids k.id).length = 0 := by omega
  have h1 : ¬ (factsOf db.factoids k.id).length = 1 := by omega
  rw [unlearn]
  simp [hlr, h0, h1]

/-- C7 (confirmed): with more than one factoid stored for the key and no
position supplied, a capable `unlearn` reports the ambiguity error carrying
the candidate count (the join's rowcount) and changes nothing. -/
theorem C7_unlearn_ambiguous (db : DB) (key : String) (k : KeyRow)
    (hwf : WF db) (hk : findKey db key = some k)
    (hlen : 2 ≤ (factsOf db.factoids k.id).length) :
    unlearn db key none true =
      (db, Reply.ambiguous (factsOf db.factoids k.id).length) :=
  unlearn_ambiguous_eq db key k hwf hk hlen

/-- C7 witness: two factoids stored for `"c"`, capable `unlearn` with no
position answers the ambiguity error with candidate count 2 and leaves the
scope unchanged. -/
theorem C7_witness :
    WF sampleDB2 ∧ findKey sampleDB2 "c" = some ⟨1, "c", false⟩ ∧
    2 ≤ (factsOf sampleDB2.factoids 1).length ∧
    unlearn sampleDB2 "c" none true = (sampleDB2, Reply.ambiguous 2) := by
  refine ⟨by decide, by decide, by decide, ?_⟩
  exact C7_unlearn_ambiguous sampleDB2 "c" ⟨1, "c", false⟩ (by decide)
    (by decide) (by decide)

/-- C2 (corrected): `whatis` returns the first `min(N, 20)` facts of the key
in id-ascending stored order, but the reported total is the length of the
fetched, already-limited list — not the true fact count N; nothing in the
reply reflects N when N exceeds the limit. -/
theorem C2_whatis_amended (db : DB) (key : String) (k : KeyRow)
    (hwf : WF db) (hk : findKey db key = some k)
    (hne : factsOf db.factoids k.id ≠ []) :
    ∃ r, whatis db key = some r ∧
      r.facts = ((factsOf db.factoids k.id).map (fun f => f.fact)).take 20 ∧
      r.facts.length = min (factsOf db.factoids k.id).length 20 ∧
      r.totalResults = r.facts.length ∧
      (factsOf db.factoids k.id).Pairwise (fun a b => a.id < b.id) := by
  have hsorted : (factsOf db.factoids k.id).Pairwise (fun a b => a.id < b.id) :=
    List.Pairwise.sublist (List.filter_sublist _) hwf.2.2
  have hfe := whatisFacts_eq hwf hk
  have hne2 : whatisFacts db key ≠ [] := by
    rw [hfe]
    intro h0
    rcases List.take_eq_nil_iff.1 h0 with h20 | hmap
    · exact absurd h20 (by norm_num)
    · exact hne (List.map_eq_nil.1 hmap)
  have hni : ¬ (whatisFacts db key).isEmpty = true := by
    rw [List.isEmpty_iff]
    exact hne2
  have hw : whatis db key
      = some ⟨whatisFacts db key, (whatisFacts db key).length⟩ := by
    simp only [whatis]
    rw [if_neg hni]
  refine ⟨⟨whatisFacts db key, (whatisFacts db key).length⟩, hw, hfe, ?_, rfl,
    hsorted⟩
  rw [hfe, List.length_take, List.length_map, Nat.min_comm]

set_option maxRecDepth 4000 in
/-- C2 counterexample: with 25 stored factoids for `"k"` the reply carries 20
facts and reports `totalResults = 20`, not the true count 25 the claim
demands. -/
theorem C2_counterexample :
    (factsOf sampleDB25.factoids 1).length = 25 ∧
    (whatis sampleDB25 "k").map (fun r => r.totalResults) = some 20 ∧
    (whatis sampleDB25 "k").map (fun r => r.facts.length) = some 20 := by
  decide

set_option maxRecDepth 4000 in
/-- C2 witness: the amended statement evaluated on the 25-factoid scope. -/
theorem C2_witness :
    WF sampleDB25 ∧
    (∃ r, whatis sampleDB25 "k" = some r ∧
      r.facts = ((factsOf sampleDB25.factoids
          (⟨1, "k", false⟩ : KeyRow).id).map (fun f => f.fact)).take 20 ∧
      r.facts.length
        = min (factsOf sampleDB25.factoids (⟨1, "k", false⟩ : KeyRow).id).length 20 ∧
      r.totalResults = r.facts.length ∧
      (factsOf sampleDB25.factoids
          (⟨1, "k", false⟩ : KeyRow).id).Pairwise (fun a b => a.id < b.id)) :=
  ⟨by decide, C2_whatis_amended sampleDB25 "k" ⟨1, "k", false⟩ (by decide)
    (by decide) (by decide)⟩

theorem double_filter_eq (fs : List FactoidRow) (kid : Nat) :
    (fs.filter (fun x => !(x.key_id == kid))).filter
        (fun x => !(([kid] : List Nat).contains x.key_id))
      = fs.filter (fun x => !(x.key_id == kid)) := by
  rw [List.filter_eq_self]
  intro b hb
  rcases List.mem_filter.1 hb with ⟨_, hp⟩
  simp only [List.contains_cons, List.contains_nil, Bool.or_false]
  exact hp

theorem unlearn_single (db : DB) (key : String) (number : Option Int)
    {k : KeyRow} {f : FactoidRow}
    (hwf : WF db) (hk : findKey db key = some k)
    (hL : factsOf db.factoids k.id = [f]) :
    unlearn db key number true =
      (⟨db.keys.filter (fun x => !(x.key == key)),
        db.factoids.filter (fun x => !(x.key_id == k.id))⟩, Reply.success) := by
  have hrows : joinRows db key = [(k.id, f.id)] := by
    rw [joinRows_eq hwf hk, hL]
    rfl
  have hks : db.keys.filter (fun x => x.key == key) = [k] :=
    keysFilter_eq_single hwf hk
  rw [unlearn]
  simp only [hrows, hks, List.length_cons, List.length_nil, List.headD,
    List.map_cons, List.map_nil, if_true]
  rw [if_neg (by omega), double_filter_eq]

theorem find?_filter_out (ks : List KeyRow) (key : String) :
    (ks.filter (fun x => !(x.key == key))).find? (fun x => x.key == key)
      = none := by
  rw [List.find?_eq_none]
  intro x hx
  rcases List.mem_filter.1 hx with ⟨_, hp⟩
  simp only [Bool.not_eq_true'] at hp
  simp [hp]

theorem filter_key_filter_out (ks : List KeyRow) (key : String) :
    (ks.filter (fun x => !(x.key == key))).filter (fun x => x.key == key)
      = [] := by
  rw [List.filter_eq_nil]
  intro x hx
  rcases List.mem_filter.1 hx with ⟨_, hp⟩
  simp only [Bool.not_eq_true'] at hp
  simp [hp]

theorem learn_fresh (db : DB) (key fact name : String) (now : Nat)
    (hk : findKey db key = none) :
    (learn db key fact name now true).2 = Reply.success ∧
    findKey (learn db key fact name now true).1 key
      = some ⟨nextKeyId db, key, false⟩ ∧
    factsOf (learn db key fact name now true).1.factoids (nextKeyId db)
      ≠ [] := by
  have heq : learn db key fact name now true
      = (insertFactoid ⟨db.keys ++ [⟨nextKeyId db, key, false⟩], db.factoids⟩
          (nextKeyId db) name now fact, Reply.success) := by
    rw [learn, hk]
    simp [learnBody]
  rw [heq]
  refine ⟨rfl, ?_, ?_⟩
  · show List.find? (fun x => x.key == key)
        (db.keys ++ [(⟨nextKeyId db, key, false⟩ : KeyRow)])
        = some (⟨nextKeyId db, key, false⟩ : KeyRow)
    rw [List.find?_append, show db.keys.find? (fun x => x.key == key) = none
      from hk]
    simp [List.find?_cons]
  · show factsOf (db.factoids ++
        [⟨nextFactoidId ⟨db.keys ++ [⟨nextKeyId db, key, false⟩], db.factoids⟩,
          nextKeyId db, name, now, fact⟩]) (nextKeyId db) ≠ []
    rw [factsOf_append]
    simp [factsOf]

/-- C3 (confirmed): with exactly one factoid stored for the key, a capable
`unlearn` without a position succeeds, deleting the factoid and the key row;
a subsequent lookup (and `whatis`) finds nothing, and a subsequent capable
`learn` of the same text succeeds, creating a fresh unlocked key that again
owns a factoid. -/
theorem C3_unlearn_single_then_learn (db : DB) (key fact2 name2 : String)
    (now2 : Nat) (k : KeyRow) (f : FactoidRow)
    (hwf : WF db) (hk : findKey db key = some k)
    (hL : factsOf db.factoids k.id = [f]) :
    (unlearn db key none true).2 = Reply.success ∧
    findKey (unlearn db key none true).1 key = none ∧
    whatis (unlearn db key none true).1 key = none ∧
    (learn (unlearn db key none true).1 key fact2 name2 now2 true).2
      = Reply.success ∧
    ∃ k2, findKey (learn (unlearn db key none true).1 key fact2 name2 now2
        true).1 key = some k2 ∧ k2.key = key ∧ k2.locked = false ∧
      factsOf (learn (unlearn db key none true).1 key fact2 name2 now2
        true).1.factoids k2.id ≠ [] := by
  have hu := unlearn_single db key none hwf hk hL
  rw [hu]
  have hnone : findKey (⟨db.keys.filter (fun x => !(x.key == key)),
      db.factoids.filter (fun x => !(x.key_id == k.id))⟩ : DB) key = none :=
    find?_filter_out db.keys key
  have hfresh := learn_fresh (⟨db.keys.filter (fun x => !(x.key == key)),
    db.factoids.filter (fun x => !(x.key_id == k.id))⟩ : DB)
    key fact2 name2 now2 hnone
  refine ⟨rfl, hnone, ?_, hfresh.1, ⟨_, hfresh.2.1, rfl, rfl, hfresh.2.2⟩⟩
  have hwfacts : whatisFacts (⟨db.keys.filter (fun x => !(x.key == key)),
      db.factoids.filter (fun x => !(x.key_id == k.id))⟩ : DB) key = [] := by
    rw [whatisFacts]
    rw [show (⟨db.keys.filter (fun x => !(x.key == key)),
      db.factoids.filter (fun x => !(x.key_id == k.id))⟩ : DB).keys
        = db.keys.filter (fun x => !(x.key == key)) from rfl]
    rw [filter_key_filter_out]
    rfl
  simp [whatis, hwfacts]

theorem filter_key_map_setLock (l : List KeyRow) (key key2 : String) (b : Bool) :
    (l.map (setLockEntry key b)).filter (fun x => x.key == key2)
      = (l.filter (fun x => x.key == key2)).map (setLockEntry key b) := by
  induction l with
  | nil => rfl
  | cons a t ih =>
      simp only [List.map_cons, List.filter_cons, setLockEntry_key]
      by_cases h : a.key = key2
      · have hb : (a.key == key2) = true := by simp [h]
        rw [hb]
        simp [ih]
      · have hb : (a.key == key2) = false := by simp [h]
        rw [hb]
        simp [ih]

theorem joinRows_setLockedRows (db : DB) (key2 key : String) (b : Bool) :
    joinRows (setLockedRows db key b) key2 = joinRows db key2 := by
  show ((db.keys.map (setLockEntry key b)).filter
      (fun x => x.key == key2)).flatMap
      (fun k => (factsOf db.factoids k.id).map (fun f => (k.id, f.id)))
    = (db.keys.filter (fun x => x.key == key2)).flatMap
      (fun k => (factsOf db.factoids k.id).map (fun f => (k.id, f.id)))
  rw [filter_key_map_setLock]
  induction db.keys.filter (fun x => x.key == key2) with
  | nil => rfl
  | cons a t ih => simp only [List.map_cons, List.flatMap_cons, ih,
      setLockEntry_id]

theorem deletedIds_setLockedRows (db : DB) (key : String) (b : Bool) :
    ((db.keys.map (setLockEntry key b)).filter (fun x => x.key == key)).map
      (fun x => x.id)
    = (db.keys.filter (fun x => x.key == key)).map (fun x => x.id) := by
  rw [filter_key_map_setLock, List.map_map]
  exact List.map_congr_left (fun a _ => by simp [Function.comp, setLockEntry_id])

/-- C10 (confirmed): `unlearn` never consults the locked flag — locking
every row that carries the key text changes neither the reply nor the
resulting factoid table, so a capability-holding caller deletes a locked
key's factoids exactly as it would an unlocked key's. -/
theorem C10_unlearn_ignores_lock (db : DB) (key : String) (number : Option Int) :
    (unlearn (setLockedRows db key true) key number true).2
      = (unlearn db key number true).2 ∧
    (unlearn (setLockedRows db key true) key number true).1.factoids
      = (unlearn db key number true).1.factoids := by
  have hjr := joinRows_setLockedRows db key key true
  have hdel := deletedIds_setLockedRows db key true
  rw [unlearn, unlearn, hjr]
  by_cases h0 : (joinRows db key).length = 0
  · simp [h0, setLockedRows]
  by_cases h1 : (joinRows db key).length = 1
  · simp only [h0, h1, if_true, if_false, setLockedRows, if_neg, if_pos]
    rw [hdel]
    simp
  · simp only [setLockedRows, if_neg h0, if_neg h1]
    rcases number with _ | n
    · simp
    · rcases hp : pyGet (joinRows db key) n with _ | r <;> simp [hp]

theorem delete_by_id_factsOf {db : DB} {kid : Nat} {fstar : FactoidRow}
    (hwf : WF db) {i : Nat}
    (hget : (factsOf db.factoids kid).get? i = some fstar) :
    factsOf (db.factoids.filter (fun x => !(x.id == fstar.id))) kid
      = (factsOf db.factoids kid).eraseIdx i := by
  rw [factsOf_filter]
  exact filter_ne_eraseIdx
    (ids_nodup (List.Pairwise.sublist (List.filter_sublist _) hwf.2.2)) hget

theorem delete_by_id_other {db : DB} {fstar : FactoidRow}
    (hwf : WF db) (hmem : fstar ∈ db.factoids) {kid2 : Nat}
    (hne : kid2 ≠ fstar.key_id) :
    factsOf (db.factoids.filter (fun x => !(x.id == fstar.id))) kid2
      = factsOf db.factoids kid2 := by
  rw [factsOf_filter, List.filter_eq_self]
  intro g hg
  rcases List.mem_filter.1 hg with ⟨hgmem, hgk⟩
  have hgne : g ≠ fstar := by
    intro he
    subst he
    exact hne (beq_iff_eq.1 hgk).symm
  have hid : g.id ≠ fstar.id :=
    fun he => hgne (eq_of_id_eq (ids_nodup hwf.2.2) hgmem hmem he)
  simp [hid]

theorem unlearn_multi {db : DB} {key : String} {k : KeyRow} (n : Int)
    (r : Nat × Nat) (hwf : WF db) (hk : findKey db key = some k)
    (hlen : 2 ≤ (factsOf db.factoids k.id).length)
    (hpg : pyGet (joinRows db key) n = some r) :
    unlearn db key (some n) true =
      ({ db with factoids := db.factoids.filter (fun x => !(x.id == r.2)) },
       Reply.success) := by
  have hlr : (joinRows db key).length = (factsOf db.factoids k.id).length := by
    rw [joinRows_eq hwf hk, List.length_map]
  have h0 : ¬ (joinRows db key).length = 0 := by omega
  have h1 : ¬ (joinRows db key).length = 1 := by omega
  have h0n : ¬ joinRows db key = [] := by
    intro he
    rw [he] at h0
    exact h0 rfl
  rw [unlearn]
  simp [if_neg h0, if_neg h1, h0n, hpg]

theorem unlearn_multi_invalid {db : DB} {key : String} {k : KeyRow} (n : Int)
    (hwf : WF db) (hk : findKey db key = some k)
    (hlen : 2 ≤ (factsOf db.factoids k.id).length)
    (hpg : pyGet (joinRows db key) n = none) :
    unlearn db key (some n) true = (db, Reply.invalidNumber) := by
  have hlr : (joinRows db key).length = (factsOf db.factoids k.id).length := by
    rw [joinRows_eq hwf hk, List.length_map]
  have h0 : ¬ (joinRows db key).length = 0 := by omega
  have h1 : ¬ (joinRows db key).length = 1 := by omega
  have h0n : ¬ joinRows db key = [] := by
    intro he
    rw [he] at h0
    exact h0 rfl
  rw [unlearn]
  simp [if_neg h0, if_neg h1, h0n, hpg]

theorem pyGet_nonneg {α : Type} (xs : List α) (i : Nat) :
    pyGet xs (i : Int) = xs.get? i := by
  rw [pyGet, if_pos (Int.ofNat_nonneg i)]
  norm_num

/-- C6 (confirmed): for an in-range zero-based position i, a capable
`unlearn` succeeds and removes exactly the i-th element of the key's
id-ascending factoid list (the same ordering `whatis` shows, whose i-th
displayed fact is that factoid's text when i is within the display limit),
leaving every other key's factoids untouched. -/
theorem C6_unlearn_position (db : DB) (key : String) (k : KeyRow) (i : Nat)
    (fstar : FactoidRow) (hwf : WF db) (hk : findKey db key = some k)
    (hget : (factsOf db.factoids k.id).get? i = some fstar) :
    (unlearn db key (some (i : Int)) true).2 = Reply.success ∧
    factsOf (unlearn db key (some (i : Int)) true).1.factoids k.id
      = (factsOf db.factoids k.id).eraseIdx i ∧
    (∀ kid2, kid2 ≠ k.id →
      factsOf (unlearn db key (some (i : Int)) true).1.factoids kid2
        = factsOf db.factoids kid2) ∧
    (factsOf db.factoids k.id).Pairwise (fun a b => a.id < b.id) ∧
    (i < 20 → (whatisFacts db key).get? i = some fstar.fact) := by
  have hsorted : (factsOf db.factoids k.id).Pairwise (fun a b => a.id < b.id) :=
    List.Pairwise.sublist (List.filter_sublist _) hwf.2.2
  have hlen : i < (factsOf db.factoids k.id).length := by
    rcases List.get?_eq_some.1 hget with ⟨h, _⟩
    exact h
  have hfmem0 : fstar ∈ factsOf db.factoids k.id := List.get?_mem hget
  have hfmem : fstar ∈ db.factoids := (List.mem_filter.1 hfmem0).1
  have hfkid : fstar.key_id = k.id := beq_iff_eq.1 (List.mem_filter.1 hfmem0).2
  have hwhat : i < 20 → (whatisFacts db key).get? i = some fstar.fact := by
    intro h20
    rw [whatisFacts_eq hwf hk, List.get?_take h20, List.get?_map, hget]
    rfl
  by_cases hone : (factsOf db.factoids k.id).length = 1
  · have hi0 : i = 0 := by omega
    subst hi0
    rcases List.length_eq_one.1 hone with ⟨a, ha⟩
    have hfa : a = fstar := by
      rw [ha, List.get?_cons_zero] at hget
      exact Option.some_inj.1 hget
    subst hfa
    have hu := unlearn_single db key (some ((0 : Nat) : Int)) hwf hk ha
    rw [hu]
    refine ⟨rfl, ?_, ?_, hsorted, hwhat⟩
    · show factsOf (db.factoids.filter (fun x => !(x.key_id == k.id))) k.id
        = (factsOf db.factoids k.id).eraseIdx 0
      rw [factsOf_filter, ha, List.eraseIdx_cons_zero]
      simp [hfkid]
    · intro kid2 hkid2
      show factsOf (db.factoids.filter (fun x => !(x.key_id == k.id))) kid2
        = factsOf db.factoids kid2
      rw [factsOf_filter, List.filter_eq_self]
      intro g hg
      have hgk : g.key_id = kid2 := beq_iff_eq.1 (List.mem_filter.1 hg).2
      simp [hgk, hkid2]
  · have hlen2 : 2 ≤ (factsOf db.factoids k.id).length := by omega
    have hpg : pyGet (joinRows db key) ((i : Nat) : Int)
        = some (k.id, fstar.id) := by
      rw [pyGet_nonneg, joinRows_eq hwf hk, List.get?_map, hget]
      rfl
    have hu := unlearn_multi ((i : Nat) : Int) (k.id, fstar.id) hwf hk hlen2 hpg
    rw [hu]
    refine ⟨rfl, ?_, ?_, hsorted, hwhat⟩
    · exact delete_by_id_factsOf hwf hget
    · intro kid2 hkid2
      exact delete_by_id_other hwf hfmem (by rw [hfkid]; exact hkid2)

theorem pyGet_out_of_range {α : Type} (xs : List α) (p : Int)
    (h : p ≥ (xs.length : Int) ∨ p < -(xs.length : Int)) : pyGet xs p = none := by
  rcases h with h | h
  · rw [pyGet, if_pos (by omega), List.get?_eq_none]
    omega
  · rw [pyGet, if_neg (by omega), if_neg (by omega)]

theorem pyGet_neg {α : Type} (xs : List α) (p : Int) (h0 : p < 0)
    (hr : (-p).toNat ≤ xs.length) :
    pyGet xs p = xs.get? (xs.length - (-p).toNat) := by
  rw [pyGet, if_neg (by omega), if_pos hr]

/-- C8 (corrected): with more than one factoid, a supplied position that is
out of range on BOTH ends of Python indexing (p ≥ N or p < -N) yields the
invalid-number error and no change; but a negative p with -N ≤ p < 0 is NOT
rejected — Python list indexing deletes the (N + p)-th factoid. -/
theorem C8_unlearn_range_amended (db : DB) (key : String) (k : KeyRow) (p : Int)
    (hwf : WF db) (hk : findKey db key = some k)
    (hlen : 2 ≤ (factsOf db.factoids k.id).length) :
    ((p ≥ ((factsOf db.factoids k.id).length : Int) ∨
        p < -((factsOf db.factoids k.id).length : Int)) →
      unlearn db key (some p) true = (db, Reply.invalidNumber)) ∧
    ((-((factsOf db.factoids k.id).length : Int) ≤ p ∧ p < 0) →
      (unlearn db key (some p) true).2 = Reply.success ∧
      factsOf (unlearn db key (some p) true).1.factoids k.id
        = (factsOf db.factoids k.id).eraseIdx
            ((factsOf db.factoids k.id).length - (-p).toNat)) := by
  have hlr : (joinRows db key).length = (factsOf db.factoids k.id).length := by
    rw [joinRows_eq hwf hk, List.length_map]
  constructor
  · intro hp
    have hpg : pyGet (joinRows db key) p = none := by
      apply pyGet_out_of_range
      rw [hlr]
      exact hp
    exact unlearn_multi_invalid p hwf hk hlen hpg
  · rintro ⟨hp1, hp2⟩
    have hjlt : (factsOf db.factoids k.id).length - (-p).toNat
        < (factsOf db.factoids k.id).length := by omega
    have hget : (factsOf db.factoids k.id).get?
          ((factsOf db.factoids k.id).length - (-p).toNat)
        = some ((factsOf db.factoids k.id).get
            ⟨(factsOf db.factoids k.id).length - (-p).toNat, hjlt⟩) :=
      List.get?_eq_get hjlt
    have hpg : pyGet (joinRows db key) p
        = some (k.id, ((factsOf db.factoids k.id).get
            ⟨(factsOf db.factoids k.id).length - (-p).toNat, hjlt⟩).id) := by
      rw [pyGet_neg _ p hp2 (by omega), hlr, joinRows_eq hwf hk,
        List.get?_map, hget]
      rfl
    have hu := unlearn_multi p _ hwf hk hlen hpg
    rw [hu]
    exact ⟨rfl, delete_by_id_factsOf hwf hget⟩

/-- C3 witness: the single-factoid scope for `"w"`; unlearn succeeds, the key
vanishes, and a fresh learn succeeds again. -/
theorem C3_witness :
    WF sampleDB1 ∧ findKey sampleDB1 "w" = some ⟨1, "w", false⟩ ∧
    factsOf sampleDB1.factoids 1 = [⟨1, 1, "alice", 5, "a thing"⟩] ∧
    (unlearn sampleDB1 "w" none true).2 = Reply.success ∧
    findKey (unlearn sampleDB1 "w" none true).1 "w" = none ∧
    (learn (unlearn sampleDB1 "w" none true).1 "w" "new" "bob" 9 true).2
      = Reply.success :=
  ⟨by decide, by decide, by decide,
   (C3_unlearn_single_then_learn sampleDB1 "w" "new" "bob" 9 ⟨1, "w", false⟩
     ⟨1, 1, "alice", 5, "a thing"⟩ (by decide) (by decide) (by decide)).1,
   (C3_unlearn_single_then_learn sampleDB1 "w" "new" "bob" 9 ⟨1, "w", false⟩
     ⟨1, 1, "alice", 5, "a thing"⟩ (by decide) (by decide) (by decide)).2.1,
   (C3_unlearn_single_then_learn sampleDB1 "w" "new" "bob" 9 ⟨1, "w", false⟩
     ⟨1, 1, "alice", 5, "a thing"⟩ (by decide) (by decide) (by decide)).2.2.2.1⟩

/-- C6 witness: deleting position 0 of the two-factoid key `"c"` removes
`"blue"`, the first-displayed fact, and only it. -/
theorem C6_witness :
    WF sampleDB2 ∧ findKey sampleDB2 "c" = some ⟨1, "c", false⟩ ∧
    (factsOf sampleDB2.factoids 1).get? 0 = some ⟨1, 1, "a", 0, "blue"⟩ ∧
    (unlearn sampleDB2 "c" (some ((0 : Nat) : Int)) true).2 = Reply.success ∧
    factsOf (unlearn sampleDB2 "c" (some ((0 : Nat) : Int)) true).1.factoids 1
      = (factsOf sampleDB2.factoids 1).eraseIdx 0 :=
  ⟨by decide, by decide, by decide,
   (C6_unlearn_position sampleDB2 "c" ⟨1, "c", false⟩ 0 ⟨1, 1, "a", 0, "blue"⟩
     (by decide) (by decide) (by decide)).1,
   (C6_unlearn_position sampleDB2 "c" ⟨1, "c", false⟩ 0 ⟨1, 1, "a", 0, "blue"⟩
     (by decide) (by decide) (by decide)).2.1⟩

/-- C8 counterexample: key `"c"` holds 2 factoids and position -1 is out of
range by the claim (p < 0), yet `unlearn` succeeds and deletes the last
factoid `"red"` instead of failing with the invalid-position error. -/
theorem C8_counterexample :
    2 ≤ (factsOf sampleDB2.factoids 1).length ∧ ((-1 : Int) < 0) ∧
    (unlearn sampleDB2 "c" (some (-1)) true).2 = Reply.success ∧
    (unlearn sampleDB2 "c" (some (-1)) true).1.factoids
      = [⟨1, 1, "a", 0, "blue"⟩] := by
  decide

/-- C8 witness: positions 5 and -7 are out of range on both Python ends for
the two-factoid key and are rejected with no change. -/
theorem C8_witness :
    WF sampleDB2 ∧ findKey sampleDB2 "c" = some ⟨1, "c", false⟩ ∧
    2 ≤ (factsOf sampleDB2.factoids 1).length ∧
    unlearn sampleDB2 "c" (some 5) true = (sampleDB2, Reply.invalidNumber) ∧
    unlearn sampleDB2 "c" (some (-7)) true
      = (sampleDB2, Reply.invalidNumber) :=
  ⟨by decide, by decide, by decide,
   (C8_unlearn_range_amended sampleDB2 "c" ⟨1, "c", false⟩ 5 (by decide)
     (by decide) (by decide)).1 (by decide),
   (C8_unlearn_range_amended sampleDB2 "c" ⟨1, "c", false⟩ (-7) (by decide)
     (by decide) (by decide)).1 (by decide)⟩

/-! Preservation of well-formedness and the empty-key invariant (claim C1). -/

theorem learn_eq_found {db : DB} {key : String} {k : KeyRow}
    (hk : findKey db key = some k) (fact name : String) (now : Nat) (c : Bool) :
    learn db key fact name now c = learnBody db k.id k.locked fact name now c := by
  rw [learn, hk]

theorem learn_eq_fresh {db : DB} {key : String}
    (hk : findKey db key = none) (fact name : String) (now : Nat) (c : Bool) :
    learn db key fact name now c
      = learnBody (⟨db.keys ++ [⟨nextKeyId db, key, false⟩], db.factoids⟩ : DB)
          (nextKeyId db) false fact name now c := by
  rw [learn, hk]

theorem WF_insertFactoid (db : DB) (kid : Nat) (name : String) (now : Nat)
    (fact : String) (hwf : WF db) : WF (insertFactoid db kid name now fact) := by
  refine ⟨hwf.1, hwf.2.1, ?_⟩
  show (db.factoids
      ++ [(⟨nextFactoidId db, kid, name, now, fact⟩ : FactoidRow)]).Pairwise
      (fun a b => a.id < b.id)
  rw [List.pairwise_append]
  refine ⟨hwf.2.2, List.pairwise_singleton _ _, ?_⟩
  intro a ha b hb
  rcases List.mem_singleton.1 hb with rfl
  have hle : a.id ≤ maxId (db.factoids.map (fun f => f.id)) :=
    mem_le_maxId (List.mem_map_of_mem _ ha)
  show a.id < maxId (db.factoids.map (fun f => f.id)) + 1
  omega

theorem NEK_insertFactoid (db : DB) (kid : Nat) (name : String) (now : Nat)
    (fact : String) (hn : NoEmptyKeys db) :
    NoEmptyKeys (insertFactoid db kid name now fact) := by
  intro k hk
  have hold := hn k hk
  show factsOf (db.factoids
      ++ [(⟨nextFactoidId db, kid, name, now, fact⟩ : FactoidRow)]) k.id ≠ []
  rw [factsOf_append]
  intro hemp
  exact hold (List.append_eq_nil.1 hemp).1

theorem WF_keyAppend {db : DB} {key : String}
    (hk : findKey db key = none) (hwf : WF db) :
    WF (⟨db.keys ++ [⟨nextKeyId db, key, false⟩], db.factoids⟩ : DB) := by
  refine ⟨?_, ?_, hwf.2.2⟩
  · show (db.keys ++ [(⟨nextKeyId db, key, false⟩ : KeyRow)]).Pairwise
        (fun a b => a.id < b.id)
    rw [List.pairwise_append]
    refine ⟨hwf.1, List.pairwise_singleton _ _, ?_⟩
    intro a ha b hb
    rcases List.mem_singleton.1 hb with rfl
    have hle : a.id ≤ maxId (db.keys.map (fun x => x.id)) :=
      mem_le_maxId (List.mem_map_of_mem _ ha)
    show a.id < maxId (db.keys.map (fun x => x.id)) + 1
    omega
  · show (db.keys ++ [(⟨nextKeyId db, key, false⟩ : KeyRow)]).Pairwise
        (fun a b => a.key ≠ b.key)
    rw [List.pairwise_append]
    refine ⟨hwf.2.1, List.pairwise_singleton _ _, ?_⟩
    intro a ha b hb
    rcases List.mem_singleton.1 hb with rfl
    have := List.find?_eq_none.1 hk a ha
    simpa using this

theorem WF_learn (db : DB) (key fact name : String) (now : Nat) (c : Bool)
    (hwf : WF db) : WF (learn db key fact name now c).1 := by
  cases hk : findKey db key with
  | some k =>
      rw [learn_eq_found hk, learnBody]
      cases k.locked with
      | true => simpa using hwf
      | false =>
          cases c with
          | false => simpa using hwf
          | true =>
              simpa using WF_insertFactoid db k.id name now fact hwf
  | none =>
      have hwf1 := WF_keyAppend hk hwf
      rw [learn_eq_fresh hk, learnBody]
      cases c with
      | false => simpa using hwf1
      | true =>
          simpa using WF_insertFactoid _ (nextKeyId db) name now fact hwf1

theorem NEK_learn (db : DB) (key fact name : String) (now : Nat)
    (hwf : WF db) (hn : NoEmptyKeys db) :
    NoEmptyKeys (learn db key fact name now true).1 := by
  cases hk : findKey db key with
  | some k =>
      rw [learn_eq_found hk, learnBody]
      cases k.locked with
      | true => simpa using hn
      | false => simpa using NEK_insertFactoid db k.id name now fact hn
  | none =>
      rw [learn_eq_fresh hk, learnBody]
      simp only [Bool.not_false, Bool.not_true, Bool.false_eq_true, if_true,
        if_false]
      intro k2 hk2
      rcases List.mem_append.1 hk2 with hold | hnew
      · have := hn k2 hold
        show factsOf (db.factoids
            ++ [(⟨nextFactoidId db, nextKeyId db, name, now, fact⟩ :
              FactoidRow)]) k2.id ≠ []
        rw [factsOf_append]
        intro hemp
        exact this (List.append_eq_nil.1 hemp).1
      · rcases List.mem_singleton.1 hnew with rfl
        show factsOf (db.factoids
            ++ [(⟨nextFactoidId db, nextKeyId db, name, now, fact⟩ :
              FactoidRow)]) (nextKeyId db) ≠ []
        rw [factsOf_append]
        intro hemp
        have h2 := (List.append_eq_nil.1 hemp).2
        rw [show factsOf [(⟨nextFactoidId db, nextKeyId db, name, now, fact⟩ :
            FactoidRow)] (nextKeyId db)
          = [(⟨nextFactoidId db, nextKeyId db, name, now, fact⟩ : FactoidRow)] by
            simp [factsOf]] at h2
        exact List.cons_ne_nil _ _ h2

theorem WF_setLockedRows (db : DB) (key : String) (b : Bool) (hwf : WF db) :
    WF (setLockedRows db key b) := by
  refine ⟨?_, ?_, hwf.2.2⟩
  · show (db.keys.map (setLockEntry key b)).Pairwise (fun a c => a.id < c.id)
    rw [List.pairwise_map]
    exact hwf.1.imp (fun h => by rw [setLockEntry_id, setLockEntry_id]; exact h)
  · show (db.keys.map (setLockEntry key b)).Pairwise (fun a c => a.key ≠ c.key)
    rw [List.pairwise_map]
    exact hwf.2.1.imp
      (fun h => by rw [setLockEntry_key, setLockEntry_key]; exact h)

theorem NEK_setLockedRows (db : DB) (key : String) (b : Bool)
    (hn : NoEmptyKeys db) : NoEmptyKeys (setLockedRows db key b) := by
  intro k hk
  rcases List.mem_map.1 hk with ⟨k0, hk0, rfl⟩
  show factsOf db.factoids (setLockEntry key b k0).id ≠ []
  rw [setLockEntry_id]
  exact hn k0 hk0

theorem WF_unlearn (db : DB) (key : String) (number : Option Int) (c : Bool)
    (hwf : WF db) : WF (unlearn db key number c).1 := by
  cases c with
  | false => simpa [unlearn] using hwf
  | true =>
      rw [unlearn]
      by_cases h0 : (joinRows db key).length = 0
      · simpa [h0] using hwf
      by_cases h1 : (joinRows db key).length = 1
      · simp only [if_true, if_neg h0, if_pos h1]
        refine ⟨?_, ?_, ?_⟩
        · exact List.Pairwise.sublist (List.filter_sublist _) hwf.1
        · exact List.Pairwise.sublist (List.filter_sublist _) hwf.2.1
        · exact List.Pairwise.sublist
            ((List.filter_sublist _).trans (List.filter_sublist _)) hwf.2.2
      · simp only [if_true, if_neg h0, if_neg h1]
        rcases number with _ | n
        · simpa using hwf
        · rcases hpg : pyGet (joinRows db key) n with _ | r
          · simpa [hpg] using hwf
          · simp only [hpg]
            exact ⟨hwf.1, hwf.2.1,
              List.Pairwise.sublist (List.filter_sublist _) hwf.2.2⟩

theorem pyGet_mem {α : Type} {xs : List α} {n : Int} {r : α}
    (h : pyGet xs n = some r) : r ∈ xs := by
  rw [pyGet] at h
  split at h
  · exact List.get?_mem h
  · split at h
    · exact List.get?_mem h
    · cases h

theorem NEK_unlearn (db : DB) (key : String) (number : Option Int) (c : Bool)
    (hwf : WF db) (hn : NoEmptyKeys db) :
    NoEmptyKeys (unlearn db key number c).1 := by
  cases c with
  | false => simpa [unlearn] using hn
  | true =>
      cases hk : findKey db key with
      | none =>
          have hjr := joinRows_eq_nil hk
          rw [unlearn]
          simpa [hjr] using hn
      | some k =>
          have hkkey : k.key = key := by
            have h2 : db.keys.find? (fun x => x.key == key) = some k := hk
            simpa using List.find?_some h2
          have hkmem : k ∈ db.keys := List.mem_of_find?_eq_some hk
          by_cases h1 : (factsOf db.factoids k.id).length = 1
          · rcases List.length_eq_one.1 h1 with ⟨f, hf⟩
            rw [unlearn_single db key number hwf hk hf]
            intro k2 hk2
            rcases List.mem_filter.1 hk2 with ⟨hk2m, hk2p⟩
            have hk2key : k2.key ≠ key := by
              simp only [Bool.not_eq_true'] at hk2p
              exact beq_eq_false_iff_ne.1 hk2p
            have hk2ne : k2.id ≠ k.id := by
              intro he
              exact hk2key (by
                rw [key_eq_of_id_eq (key_ids_nodup hwf.1) hk2m hkmem he]
                exact hkkey)
            show factsOf (db.factoids.filter (fun x => !(x.key_id == k.id)))
                k2.id ≠ []
            rw [factsOf_filter, List.filter_eq_self.2 ?hpass]
            case hpass =>
              intro g hg
              have hgk : g.key_id = k2.id := beq_iff_eq.1 (List.mem_filter.1 hg).2
              simp [hgk, hk2ne]
            exact hn k2 hk2m
          · by_cases h0 : (factsOf db.factoids k.id).length = 0
            · have hjr : joinRows db key = [] := by
                rw [joinRows_eq hwf hk, List.length_eq_zero.1 h0]
                rfl
              rw [unlearn]
              simpa [hjr] using hn
            · have hlen2 : 2 ≤ (factsOf db.factoids k.id).length := by omega
              rcases number with _ | n
              · rw [unlearn_ambiguous_eq db key k hwf hk hlen2]
                exact hn
              · rcases hpg : pyGet (joinRows db key) n with _ | r
                · rw [unlearn_multi_invalid n hwf hk hlen2 hpg]
                  exact hn
                · have hrmem : r ∈ joinRows db key := pyGet_mem hpg
                  rw [joinRows_eq hwf hk] at hrmem
                  rcases List.mem_map.1 hrmem with ⟨fstar, hfmemL, hfr⟩
                  have hfmem : fstar ∈ db.factoids :=
                    (List.mem_filter.1 hfmemL).1
                  have hfkid : fstar.key_id = k.id :=
                    beq_iff_eq.1 (List.mem_filter.1 hfmemL).2
                  have hr2 : r.2 = fstar.id := by rw [← hfr]
                  rw [unlearn_multi n r hwf hk hlen2 hpg]
                  intro k2 hk2
                  by_cases hid : k2.id = k.id
                  · have hk2k : k2 = k :=
                      key_eq_of_id_eq (key_ids_nodup hwf.1) hk2 hkmem hid
                    subst hk2k
                    rcases List.get?_of_mem hfmemL with ⟨i, hgeti⟩
                    have hilt : i < (factsOf db.factoids k2.id).length := by
                      rcases List.get?_eq_some.1 hgeti with ⟨h, _⟩
                      exact h
                    show factsOf (db.factoids.filter
                        (fun x => !(x.id == r.2))) k2.id ≠ []
                    rw [hr2, delete_by_id_factsOf hwf hgeti]
                    intro hemp
                    have := List.length_eraseIdx (factsOf db.factoids k2.id) i
                    rw [hemp] at this
                    simp only [if_pos hilt, List.length_nil] at this
                    omega
                  · show factsOf (db.factoids.filter
                        (fun x => !(x.id == r.2))) k2.id ≠ []
                    rw [hr2, delete_by_id_other hwf hfmem
                      (by rw [hfkid]; exact hid)]
                    exact hn k2 hk2

theorem WF_stepDb (db : DB) (op : Op) (hwf : WF db) : WF (stepDb db op) := by
  cases op with
  | learnOp k f n t c => exact WF_learn db k f n t c hwf
  | whatisOp k => exact hwf
  | lockOp k c =>
      cases c with
      | false => exact hwf
      | true => exact WF_setLockedRows db k true hwf
  | unlockOp k c =>
      cases c with
      | false => exact hwf
      | true => exact WF_setLockedRows db k false hwf
  | unlearnOp k n c => exact WF_unlearn db k n c hwf
  | randomOp c => exact hwf
  | infoOp k => exact hwf

theorem NEK_stepDb (db : DB) (op : Op) (hwf : WF db) (hn : NoEmptyKeys db)
    (hcap : opHasCap op = true) : NoEmptyKeys (stepDb db op) := by
  cases op with
  | learnOp k f n t c =>
      have hc : c = true := hcap
      subst hc
      exact NEK_learn db k f n t hwf hn
  | whatisOp k => exact hn
  | lockOp k c =>
      cases c with
      | false => exact hn
      | true => exact NEK_setLockedRows db k true hn
  | unlockOp k c =>
      cases c with
      | false => exact hn
      | true => exact NEK_setLockedRows db k false hn
  | unlearnOp k n c => exact NEK_unlearn db k n c hwf hn
  | randomOp c => exact hn
  | infoOp k => exact hn

theorem runOps_inv (ops : List Op) : ∀ db : DB, WF db → NoEmptyKeys db →
    (∀ op ∈ ops, opHasCap op = true) →
    WF (runOps db ops) ∧ NoEmptyKeys (runOps db ops) := by
  induction ops with
  | nil => exact fun db h1 h2 _ => ⟨h1, h2⟩
  | cons op t ih =>
      intro db h1 h2 hcap
      rw [runOps, List.foldl_cons]
      have hop : opHasCap op = true := hcap op (List.mem_cons_self op t)
      exact ih (stepDb db op) (WF_stepDb db op h1)
        (NEK_stepDb db op h1 h2 hop)
        (fun o ho => hcap o (List.mem_cons_of_mem op ho))

/-- C1 (corrected): starting from the empty scope, any sequence of facade
operations in which every `learn` runs with the capability granted keeps the
invariant that no key row has zero factoids; the restriction is necessary —
see the counterexample — because `learn` inserts a missing key row before it
checks the capability, so a denied `learn` on an unseen text leaves an empty
key behind. -/
theorem C1_no_empty_keys_amended (ops : List Op)
    (hcap : ∀ op ∈ ops, opHasCap op = true) :
    NoEmptyKeys (runOps emptyDB ops) :=
  (runOps_inv ops emptyDB (by decide) (by decide) hcap).2

/-- C1 counterexample: a single capability-denied `learn` on the unseen key
`"boats"` creates the key row, is refused before writing a factoid, and
leaves a key with zero factoids — the claimed invariant fails for this
operation sequence. -/
theorem C1_counterexample :
    ¬ NoEmptyKeys (runOps emptyDB [Op.learnOp "boats" "float" "alice" 0 false])
    := by
  decide

/-- C1 witness: a capable history (two learns, a lock, a positional unlearn,
a final unlearn) ends with no empty key. -/
theorem C1_witness :
    (∀ op ∈ [Op.learnOp "c" "blue" "a" 0 true, Op.learnOp "c" "red" "b" 1 true,
        Op.lockOp "c" true, Op.unlearnOp "c" (some 0) true,
        Op.unlearnOp "c" none true], opHasCap op = true) ∧
    NoEmptyKeys (runOps emptyDB [Op.learnOp "c" "blue" "a" 0 true,
        Op.learnOp "c" "red" "b" 1 true, Op.lockOp "c" true,
        Op.unlearnOp "c" (some 0) true, Op.unlearnOp "c" none true]) :=
  ⟨by decide,
   C1_no_empty_keys_amended [Op.learnOp "c" "blue" "a" 0 true,
     Op.learnOp "c" "red" "b" 1 true, Op.lockOp "c" true,
     Op.unlearnOp "c" (some 0) true, Op.unlearnOp "c" none true] (by decide)⟩

/-! Concurrent key resolution (claim C9): invariant preservation. -/

theorem insertIgnore_of_found {ks : List KeyRow} {text : String} {k : KeyRow}
    (h : findKeyL ks text = some k) : insertIgnore ks text = ks := by
  rw [insertIgnore, h]

theorem insertIgnore_of_missing {ks : List KeyRow} {text : String}
    (h : findKeyL ks text = none) :
    insertIgnore ks text
      = ks ++ [⟨maxId (ks.map (fun k => k.id)) + 1, text, false⟩] := by
  rw [insertIgnore, h]

theorem findKeyL_insertIgnore_stable {ks : List KeyRow} {text : String}
    {k : KeyRow} (h : findKeyL ks text = some k) :
    findKeyL (insertIgnore ks text) text = some k := by
  rw [insertIgnore_of_found h]
  exact h

theorem findKeyL_insertIgnore_isSome (ks : List KeyRow) (text : String) :
    (findKeyL (insertIgnore ks text) text).isSome = true := by
  cases hf : findKeyL ks text with
  | some k => rw [findKeyL_insertIgnore_stable hf]; rfl
  | none =>
      rw [insertIgnore_of_missing hf, findKeyL, List.find?_append]
      rw [show ks.find? (fun x => x.key == text) = none from hf]
      simp [List.find?_cons]

theorem insertIgnore_filter_le {ks : List KeyRow} {text : String}
    (h : (ks.filter (fun k => k.key == text)).length ≤ 1) :
    ((insertIgnore ks text).filter (fun k => k.key == text)).length ≤ 1 := by
  cases hf : findKeyL ks text with
  | some k => rw [insertIgnore_of_found hf]; exact h
  | none =>
      rw [insertIgnore_of_missing hf, List.filter_append,
        filter_eq_nil_of_find_none hf]
      simp [List.filter_cons]

theorem RegInv_step {text : String} {c1 c2 : Cfg}
    (hstep : MicroStep text c1 c2) (hinv : RegInv text c1) : RegInv text c2 := by
  rcases hinv with ⟨hcount, hdone, hresel⟩
  cases hstep with
  | selectFound i ks cs k hpc hfind =>
      refine ⟨hcount, ?_, ?_⟩
      · intro pc hpc2 id hdid
        rcases List.mem_or_eq_of_mem_set hpc2 with hmem | rfl
        · exact hdone pc hmem id hdid
        · injection hdid with h
          exact ⟨k, hfind, h⟩
      · intro pc hpc2 hr
        rcases List.mem_or_eq_of_mem_set hpc2 with hmem | rfl
        · exact hresel pc hmem hr
        · cases hr
  | selectMissing i ks cs hpc hfind =>
      refine ⟨hcount, ?_, ?_⟩
      · intro pc hpc2 id hdid
        rcases List.mem_or_eq_of_mem_set hpc2 with hmem | rfl
        · exact hdone pc hmem id hdid
        · cases hdid
      · intro pc hpc2 hr
        rcases List.mem_or_eq_of_mem_set hpc2 with hmem | rfl
        · exact hresel pc hmem hr
        · cases hr
  | insertKey i ks cs hpc =>
      refine ⟨insertIgnore_filter_le hcount, ?_, ?_⟩
      · intro pc hpc2 id hdid
        rcases List.mem_or_eq_of_mem_set hpc2 with hmem | rfl
        · rcases hdone pc hmem id hdid with ⟨k, hfind, hkid⟩
          exact ⟨k, findKeyL_insertIgnore_stable hfind, hkid⟩
        · cases hdid
      · intro pc hpc2 hr
        rcases List.mem_or_eq_of_mem_set hpc2 with hmem | rfl
        · exact findKeyL_insertIgnore_isSome ks text
        · exact findKeyL_insertIgnore_isSome ks text
  | reselect i ks cs k hpc hfind =>
      refine ⟨hcount, ?_, ?_⟩
      · intro pc hpc2 id hdid
        rcases List.mem_or_eq_of_mem_set hpc2 with hmem | rfl
        · exact hdone pc hmem id hdid
        · injection hdid with h
          exact ⟨k, hfind, h⟩
      · intro pc hpc2 hr
        rcases List.mem_or_eq_of_mem_set hpc2 with hmem | rfl
        · exact hresel pc hmem hr
        · cases hr

theorem RegInv_reach {text : String} {c1 c2 : Cfg}
    (hreach : Relation.ReflTransGen (MicroStep text) c1 c2)
    (hinv : RegInv text c1) : RegInv text c2 := by
  induction hreach with
  | refl => exact hinv
  | tail hsteps hstep ih => exact RegInv_step hstep ih

/-- C9 (confirmed): with the key-resolution prefix of `learn` modelled at SQL
statement granularity over the shared serialized connection, any number of
concurrent callers resolving the same unseen text from any interleaving reach
only states with at most one key row for the text; whenever a caller has
finished, the row count is exactly one and every finished caller observed the
id of that single row — the `UNIQUE ON CONFLICT IGNORE` insert plus the
unconditional re-select close the select-then-insert window. -/
theorem C9_getorcreate_atomic (text : String) (n : Nat) (ks0 : List KeyRow)
    (c : Cfg) (hunseen : findKeyL ks0 text = none)
    (hreach : Relation.ReflTransGen (MicroStep text)
      ⟨ks0, List.replicate n CallerPC.start⟩ c) :
    ((c.keys.filter (fun k => k.key == text)).length ≤ 1) ∧
    (∀ pc1 ∈ c.callers, ∀ id1, pc1 = CallerPC.done id1 →
      ((c.keys.filter (fun k => k.key == text)).length = 1 ∧
       ∃ k, k ∈ c.keys ∧ k.key = text ∧ k.id = id1 ∧
        ∀ pc2 ∈ c.callers, ∀ id2, pc2 = CallerPC.done id2 → id2 = id1)) := by
  have hinv0 : RegInv text ⟨ks0, List.replicate n CallerPC.start⟩ := by
    refine ⟨?_, ?_, ?_⟩
    · rw [show (⟨ks0, List.replicate n CallerPC.start⟩ : Cfg).keys = ks0
        from rfl, filter_eq_nil_of_find_none hunseen]
      simp
    · intro pc hpc id hdid
      rw [List.eq_of_mem_replicate hpc] at hdid
      cases hdid
    · intro pc hpc hr
      rw [List.eq_of_mem_replicate hpc] at hr
      cases hr
  rcases RegInv_reach hreach hinv0 with ⟨hcount, hdone, _⟩
  refine ⟨hcount, ?_⟩
  intro pc1 hpc1 id1 hdid1
  rcases hdone pc1 hpc1 id1 hdid1 with ⟨k, hfind, hkid⟩
  have hfind2 : c.keys.find? (fun x => x.key == text) = some k := hfind
  have hkmem : k ∈ c.keys := List.mem_of_find?_eq_some hfind2
  have hkkey : k.key = text := by simpa using List.find?_some hfind2
  refine ⟨?_, k, hkmem, hkkey, hkid, ?_⟩
  · have hin : k ∈ c.keys.filter (fun x => x.key == text) :=
      List.mem_filter.2 ⟨hkmem, by simp [hkkey]⟩
    have hpos : 0 < (c.keys.filter (fun x => x.key == text)).length :=
      List.length_pos.2 (fun he => by rw [he] at hin; cases hin)
    omega
  · intro pc2 hpc2 id2 hdid2
    rcases hdone pc2 hpc2 id2 hdid2 with ⟨k2, hfindb, hkid2⟩
    rw [hfind] at hfindb
    have hk2 : k = k2 := Option.some_inj.1 hfindb
    rw [← hkid2, ← hk2, hkid]

/-- C9 witness: one caller running the full select-insert-reselect sequence
from the empty table reaches the done state; the theorem instantiated there
reports exactly one `"topic"` row, carrying id 1, observed by the caller. -/
theorem C9_witness :
    findKeyL ([] : List KeyRow) "topic" = none ∧
    ((((⟨[⟨1, "topic", false⟩], [CallerPC.done 1]⟩ : Cfg).keys.filter
        (fun k => k.key == "topic")).length ≤ 1) ∧
     (∀ pc1 ∈ (⟨[⟨1, "topic", false⟩], [CallerPC.done 1]⟩ : Cfg).callers,
      ∀ id1, pc1 = CallerPC.done id1 →
       ((((⟨[⟨1, "topic", false⟩], [CallerPC.done 1]⟩ : Cfg).keys.filter
           (fun k => k.key == "topic")).length = 1) ∧
        ∃ k, k ∈ (⟨[⟨1, "topic", false⟩], [CallerPC.done 1]⟩ : Cfg).keys ∧
          k.key = "topic" ∧ k.id = id1 ∧
          ∀ pc2 ∈ (⟨[⟨1, "topic", false⟩], [CallerPC.done 1]⟩ : Cfg).callers,
          ∀ id2, pc2 = CallerPC.done id2 → id2 = id1))) := by
  have s1 : MicroStep "topic" ⟨[], [CallerPC.start]⟩
      ⟨[], [CallerPC.needInsert]⟩ :=
    MicroStep.selectMissing 0 [] [CallerPC.start] rfl rfl
  have s2 : MicroStep "topic" ⟨[], [CallerPC.needInsert]⟩
      ⟨[⟨1, "topic", false⟩], [CallerPC.needReselect]⟩ :=
    MicroStep.insertKey 0 [] [CallerPC.needInsert] rfl
  have s3 : MicroStep "topic"
      ⟨[⟨1, "topic", false⟩], [CallerPC.needReselect]⟩
      ⟨[⟨1, "topic", false⟩], [CallerPC.done 1]⟩ :=
    MicroStep.reselect 0 [⟨1, "topic", false⟩] [CallerPC.needReselect]
      ⟨1, "topic", false⟩ rfl (by decide)
  have hreach : Relation.ReflTransGen (MicroStep "topic")
      ⟨[], List.replicate 1 CallerPC.start⟩
      ⟨[⟨1, "topic", false⟩], [CallerPC.done 1]⟩ :=
    Relation.ReflTransGen.tail (Relation.ReflTransGen.tail
      (Relation.ReflTransGen.tail Relation.ReflTransGen.refl s1) s2) s3
  exact ⟨rfl, C9_getorcreate_atomic "topic" 1 []
    ⟨[⟨1, "topic", false⟩], [CallerPC.done 1]⟩ rfl hreach⟩

/-- C4 witness: the amended lock/unlock contract evaluated on the two-factoid
scope. -/
theorem C4_witness :
    (lock sampleDB2 "c" true).2 = Reply.success ∧
    (unlock sampleDB2 "c" true).2 = Reply.success ∧
    lock sampleDB2 "c" false = (sampleDB2, Reply.noCapability) ∧
    unlock sampleDB2 "c" false = (sampleDB2, Reply.noCapability) ∧
    (∀ k ∈ (lock sampleDB2 "c" true).1.keys, k.key = "c" → k.locked = true) ∧
    (∀ k ∈ (unlock sampleDB2 "c" true).1.keys, k.key = "c" →
      k.locked = false) :=
  C4_lock_unlock_amended sampleDB2 "c"
